import Mathlib

/-!
Verification development for the Hikvision vehicle-detection sync engine.

The source is a Node.js program that, on a fixed schedule, queries each
configured camera for license-plate detection events captured after a
per-table watermark, decodes the XML response into vehicle records, and
inserts the records not yet present (deduplicated by picture name) into a
SQL table.  The definitions below are a shallow embedding of the functions
`getLastSyncTime`, `fetchVehiclesFromCamera`, `insertVehiclesToSQL`,
`syncVehicles` and `syncAllCameras` of the source.

Modelling conventions:
- Instants (JavaScript `Date` values, SQL `DateTime2` values) are `Int`
  milliseconds since the epoch where an order or a day computation is
  needed; the value produced by the capture-time decode is kept at the
  granularity the code computes before handing it to the `moment` library:
  a local wall-clock string together with the fixed zone name
  (`LocalStamp`).  Record types are polymorphic in the capture-time type
  so that one embedding of the insert loop serves both views.
- The XML document is modelled at the shape produced by `xml2js`: an
  optional `Plates` root, an optional `Plate` child which is either a
  lone element or a list of elements, and per-element fields that are
  either present (a string) or absent.
- JavaScript exceptions are modelled explicitly: a decode step that would
  throw (indexing a missing field) returns an error, and the single
  `try`/`catch` wrapping the body of `fetchVehiclesFromCamera` is
  modelled by `fetchBody` returning the vehicles accumulated before the
  error together with the error, and the catch discarding the error.
-/

/-- Milliseconds in one day, the modulus of the local-midnight computation. -/
def dayMs : Int := 86400000

/-- Result of `moment.tz(localString, zone)` before conversion to an
instant: the local wall-clock string the code assembles from the
positional slices, together with the fixed zone name it passes. -/
structure LocalStamp where
  timeOfDay : String
  zone : String
deriving DecidableEq, Repr

/-- A decoded detection event, as pushed onto `vehicles` in
`fetchVehiclesFromCamera`; `τ` is the representation of the capture
instant. -/
structure Vehicle (τ : Type) where
  captureTime : τ
  plateNumber : String
  picName : String
  country : String
  direction : String
deriving DecidableEq, Repr

/-- A persisted row of a detection table, with the columns of the
`INSERT` statement in `insertVehiclesToSQL`. -/
structure Row (τ : Type) where
  CaptureTime : τ
  PlateNumber : String
  PicName : String
  Country : String
  Direction : String
  InsertTime : Int
deriving DecidableEq, Repr

/-- The row built by the `INSERT` statement from a vehicle record and the
insertion instant `new Date()`. -/
def rowOfVehicle {τ : Type} (v : Vehicle τ) (now : Int) : Row τ :=
  { CaptureTime := v.captureTime
    PlateNumber := v.plateNumber
    PicName := v.picName
    Country := v.country
    Direction := v.direction
    InsertTime := now }

/-- JavaScript `s.substring(a, b)` for `a ≤ b`: the characters from index
`a` (inclusive) to `b` (exclusive), clamped to the length of `s`. -/
def jsSubstring (s : String) (a b : Nat) : String :=
  ((s.data.drop a).take (b - a)).asString

/-- The positional capture-time decode of `fetchVehiclesFromCamera`:
`substring` slices at 0-4, 4-6, 6-8, 9-11, 11-13 and 13-15 of the device
string, reassembled as a local wall-clock string and interpreted in the
fixed zone Asia/Jerusalem. -/
def decodeCaptureLocal (ct : String) : LocalStamp :=
  let year := jsSubstring ct 0 4
  let month := jsSubstring ct 4 6
  let day := jsSubstring ct 6 8
  let hour := jsSubstring ct 9 11
  let minute := jsSubstring ct 11 13
  let second := jsSubstring ct 13 15
  { timeOfDay := year ++ "-" ++ month ++ "-" ++ day ++ "T" ++ hour ++ ":" ++ minute ++ ":" ++ second
    zone := "Asia/Jerusalem" }

/-- One `Plate` element of the response as surfaced by `xml2js`: each
field is absent or carries its text content.  Accessing `plate.field[0]`
on an absent field throws in the source; the decode below models that
throw as an error. -/
structure PlateXml where
  captureTime : Option String
  plateNumber : Option String
  picName : Option String
  country : Option String
  direction : Option String
deriving DecidableEq, Repr

/-- The `Plate` child of the `Plates` root: a lone element or a list of
elements (the two shapes the `Array.isArray` test distinguishes). -/
inductive PlateRep where
  | one (p : PlateXml)
  | many (ps : List PlateXml)
deriving DecidableEq, Repr

/-- The `Plates` root node; its `Plate` child may be absent. -/
structure PlatesNode where
  Plate : Option PlateRep
deriving DecidableEq, Repr

/-- Normalization `Array.isArray(x) ? x : [x]` applied to the `Plate`
child. -/
def normalizePlates : PlateRep → List PlateXml
  | .one p => [p]
  | .many ps => ps

/-- An error raised while decoding one `Plate` element: some required
field is absent, so indexing it throws. -/
inductive DecodeErr where
  | missingField
deriving DecidableEq, Repr

/-- Decode of one `Plate` element inside the loop of
`fetchVehiclesFromCamera`: every field is read as `plate.field[0]`, which
throws when the field is absent; the capture-time string is sliced
positionally (total, never throws, even on malformed input). -/
def decodePlate (p : PlateXml) : Except DecodeErr (Vehicle LocalStamp) :=
  match p.captureTime, p.plateNumber, p.picName, p.country, p.direction with
  | some ct, some pn, some pic, some co, some di =>
      .ok { captureTime := decodeCaptureLocal ct
            plateNumber := pn
            picName := pic
            country := co
            direction := di }
  | _, _, _, _, _ => .error .missingField

/-- The decode loop over the normalized `Plate` list.  There is no
per-element catch in the source: the first throwing element aborts the
loop, and the vehicles pushed before it are what the outer catch sees.
Returns the decoded leading segment together with the error, if any. -/
def decodeLoop : List PlateXml → List (Vehicle LocalStamp) × Option DecodeErr
  | [] => ([], none)
  | p :: ps =>
      match decodePlate p with
      | .error e => ([], some e)
      | .ok v =>
          let r := decodeLoop ps
          (v :: r.1, r.2)

/-- An error observable inside the `try` block of
`fetchVehiclesFromCamera`. -/
inductive FetchErr where
  | deviceUnreachable
  | httpStatus (status : Nat)
  | decode (e : DecodeErr)
deriving DecidableEq, Repr

/-- Outcome of the device call: the network request failed outright, or a
response with an HTTP status and (already-parsed) body arrived. -/
inductive DeviceResult where
  | unreachable
  | response (status : Nat) (body : Option PlatesNode)
deriving DecidableEq, Repr

/-- JavaScript `res.ok`: the status is in the 2xx range. -/
def resOk (status : Nat) : Bool :=
  decide (200 ≤ status ∧ status ≤ 299)

/-- Body of the `try` block of `fetchVehiclesFromCamera`: the vehicles
accumulated so far, paired with the error that aborted the block, if any.
A non-2xx status throws before the body is read, so the result does not
depend on the body in that case; an absent `Plates` root or absent
`Plate` child leaves the vehicle list empty without error. -/
def fetchBody : DeviceResult → List (Vehicle LocalStamp) × Option FetchErr
  | .unreachable => ([], some .deviceUnreachable)
  | .response status body =>
      if resOk status then
        match body with
        | some node =>
            match node.Plate with
            | some rep =>
                let r := decodeLoop (normalizePlates rep)
                (r.1, r.2.map FetchErr.decode)
            | none => ([], none)
        | none => ([], none)
      else ([], some (.httpStatus status))

/-- The whole of `fetchVehiclesFromCamera`: the catch logs the error and
the function returns the vehicles accumulated so far. -/
def fetchVehiclesFromCamera (d : DeviceResult) : List (Vehicle LocalStamp) :=
  (fetchBody d).1

/-- The loop of `insertVehiclesToSQL` over one batch: for each vehicle,
an existence check by `PicName` against the current table contents,
followed by a conditional `INSERT`; returns the count of rows actually
inserted and the table contents afterwards.  Rows inserted earlier in the
same batch are visible to later existence checks, exactly as in the
source, where each check is a fresh query.  This definition models the
error-free execution in which the store accepts every `INSERT`;
`insertVehiclesToSQLChecked` below additionally models the per-vehicle
catch around an `INSERT` the driver rejects. -/
def insertVehiclesToSQL {τ : Type} :
    List (Vehicle τ) → List (Row τ) → Int → Nat × List (Row τ)
  | [], rows, _ => (0, rows)
  | v :: vs, rows, now =>
      if rows.any (fun r => r.PicName == v.picName) then
        insertVehiclesToSQL vs rows now
      else
        let r := insertVehiclesToSQL vs (rows ++ [rowOfVehicle v now]) now
        (r.1 + 1, r.2)

/-- A sequence of sync cycles against one table, each contributing the
batch of vehicles its device fetch produced together with the insertion
instant of that cycle; only the resulting table contents are kept.  The
insert loop is the only write path of the program: there is no `UPDATE`
or `DELETE` statement. -/
def applyCycles {τ : Type} :
    List (List (Vehicle τ) × Int) → List (Row τ) → List (Row τ)
  | [], rows => rows
  | b :: bs, rows => applyCycles bs (insertVehiclesToSQL b.1 rows b.2).2

/-- Maximum of a list of instants, `none` on the empty list: the value of
`SELECT MAX(CaptureTime)`, which is `NULL` exactly when the table is
empty. -/
def listMax : List Int → Option Int
  | [] => none
  | x :: xs =>
      some (match listMax xs with
            | none => x
            | some m => max x m)

/-- JavaScript `today = new Date(); today.setHours(0, 0, 0, 0)`: the most
recent local midnight at or before `now`, where `off` is the UTC offset
in milliseconds of the zone the process runs in at `now`. -/
def startOfLocalDay (off now : Int) : Int :=
  now - (now + off) % dayMs

/-- The watermark resolution `getLastSyncTime`: the query either fails
(`.error`, the catch path) or returns the table rows whose maximum
`CaptureTime` the `SELECT MAX` computes; a `NULL` maximum (empty table)
and a failed query both fall back to the start of the current local
day. -/
def getLastSyncTime (q : Except Unit (List (Row Int))) (off now : Int) : Int :=
  match q with
  | .error _ => startOfLocalDay off now
  | .ok rows =>
      match listMax (rows.map Row.CaptureTime) with
      | some t => t
      | none => startOfLocalDay off now

/-- Static configuration of one camera, as assembled in `main`. -/
structure Camera where
  name : String
  url : String
  username : String
  password : String
  tableName : String
deriving DecidableEq, Repr

/-- The store, one row list per table name. -/
abbrev StoreState := List (String × List (Row LocalStamp))

/-- Contents of one table of the store. -/
def getTable (st : StoreState) (t : String) : List (Row LocalStamp) :=
  match st.find? (fun e => e.1 == t) with
  | some e => e.2
  | none => []

/-- Replace the contents of one table of the store. -/
def setTable (st : StoreState) (t : String) (rows : List (Row LocalStamp)) :
    StoreState :=
  match st with
  | [] => [(t, rows)]
  | e :: rest => if e.1 == t then (t, rows) :: rest else e :: setTable rest t rows

/-- One sync cycle for one camera, the body of `syncVehicles`: fetch the
device result (the watermark obtained from `getLastSyncTime` only
parameterizes the device request, whose outcome the `DeviceResult`
argument models), then insert the fetched vehicles into the camera's
table when the batch is non-empty.  Returns the inserted count the cycle
logs and the store afterwards.  Every device-side error is already
absorbed inside `fetchVehiclesFromCamera`, and the surrounding
`try`/`catch` of `syncVehicles` absorbs the rest, so a cycle never
throws. -/
def syncVehicles (cam : Camera) (dev : DeviceResult) (now : Int)
    (st : StoreState) : Nat × StoreState :=
  let vehicles := fetchVehiclesFromCamera dev
  if vehicles.isEmpty then (0, st)
  else
    let rows := getTable st cam.tableName
    let r := insertVehiclesToSQL vehicles rows now
    (r.1, setTable st cam.tableName r.2)

/-- The coordinator `syncAllCameras`: the configured cameras are synced
strictly sequentially, each with the device outcome of its own call;
returns the per-camera inserted counts in configuration order and the
final store. -/
def syncAllCameras (cams : List (Camera × DeviceResult)) (now : Int)
    (st : StoreState) : List Nat × StoreState :=
  match cams with
  | [] => ([], st)
  | c :: rest =>
      let r := syncVehicles c.1 c.2 now st
      let rs := syncAllCameras rest now r.2
      (r.1 :: rs.1, rs.2)

/-- Value of a fixed-width decimal digit field. -/
def digitsToNat (cs : List Char) : Nat :=
  cs.foldl (fun a c => a * 10 + (c.toNat - 48)) 0

/-- Gregorian leap-year rule, as applied by the date library. -/
def isLeapYear (y : Nat) : Bool :=
  (y % 4 == 0 && y % 100 != 0) || y % 400 == 0

/-- Number of days of a month, leap years included. -/
def daysInMonth (y m : Nat) : Nat :=
  if m == 2 then (if isLeapYear y then 29 else 28)
  else if m == 4 || m == 6 || m == 9 || m == 11 then 30
  else 31

/-- Validity of an assembled local wall-clock string under the ISO parse
of the `moment` library, at the granularity the positional decode can
produce: exactly the shape YYYY-MM-DDTHH:mm:ss with in-range calendar
fields.  Any other string the decode can assemble (wrong separators,
non-digits, short or empty slices, out-of-range fields) parses to an
Invalid Date. -/
def validLocalString (s : String) : Bool :=
  match s.data with
  | [y1, y2, y3, y4, sepa, mo1, mo2, sepb, d1, d2, sept,
     h1, h2, sepc, mi1, mi2, sepd, s1, s2] =>
      sepa == '-' && sepb == '-' && sept == 'T' && sepc == ':' && sepd == ':' &&
      ([y1, y2, y3, y4, mo1, mo2, d1, d2, h1, h2, mi1, mi2, s1, s2].all Char.isDigit) &&
      (let y := digitsToNat [y1, y2, y3, y4]
       let mo := digitsToNat [mo1, mo2]
       let d := digitsToNat [d1, d2]
       let h := digitsToNat [h1, h2]
       let mi := digitsToNat [mi1, mi2]
       let ss := digitsToNat [s1, s2]
       decide (1 ≤ mo ∧ mo ≤ 12 ∧ 1 ≤ d ∧ d ≤ daysInMonth y mo ∧
         h ≤ 23 ∧ mi ≤ 59 ∧ ss ≤ 59))
  | _ => false

/-- Whether `moment.tz(localString, zone).toDate()` is a valid `Date`:
validity depends only on the local string (a nonexistent or ambiguous
local time around a zone transition is shifted, not invalidated). -/
def momentValid (st : LocalStamp) : Bool :=
  validLocalString st.timeOfDay

/-- The insert loop with the per-vehicle catch modelled: the existence
check runs first; for a fresh picture name the `INSERT` binds the capture
time as a `DateTime2` parameter, which the driver rejects when the value
is an Invalid Date (a malformed local stamp) — the per-vehicle catch
logs that error and the loop continues with the next vehicle, nothing
persisted and nothing counted for the failed one. -/
def insertVehiclesToSQLChecked :
    List (Vehicle LocalStamp) → List (Row LocalStamp) → Int →
      Nat × List (Row LocalStamp)
  | [], rows, _ => (0, rows)
  | v :: vs, rows, now =>
      if rows.any (fun r => r.PicName == v.picName) then
        insertVehiclesToSQLChecked vs rows now
      else if momentValid v.captureTime then
        let r := insertVehiclesToSQLChecked vs (rows ++ [rowOfVehicle v now]) now
        (r.1 + 1, r.2)
      else
        insertVehiclesToSQLChecked vs rows now

/-- The uniqueness invariant of a detection table: no two persisted rows
share a `PicName`. -/
def NoDupPic {τ : Type} (rows : List (Row τ)) : Prop :=
  (rows.map Row.PicName).Nodup

/-- The insert loop only appends rows: the table contents afterwards are
the old contents followed by the newly inserted rows. -/
theorem insertVehiclesToSQL_append {τ : Type} (vs : List (Vehicle τ))
    (rows : List (Row τ)) (now : Int) :
    ∃ extra, (insertVehiclesToSQL vs rows now).2 = rows ++ extra := by
  induction vs generalizing rows with
  | nil => exact ⟨[], by simp [insertVehiclesToSQL]⟩
  | cons v vs ih =>
      by_cases hc : rows.any (fun r => r.PicName == v.picName) = true
      · simpa [insertVehiclesToSQL, hc] using ih rows
      · obtain ⟨extra, hx⟩ := ih (rows ++ [rowOfVehicle v now])
        refine ⟨rowOfVehicle v now :: extra, ?_⟩
        simp [insertVehiclesToSQL, hc, hx]

/-- A picture name present in the table stays present through an insert
batch. -/
theorem picName_stays_present {τ : Type} (vs : List (Vehicle τ))
    (rows : List (Row τ)) (now : Int) (p : String)
    (h : p ∈ rows.map Row.PicName) :
    p ∈ ((insertVehiclesToSQL vs rows now).2).map Row.PicName := by
  obtain ⟨extra, hx⟩ := insertVehiclesToSQL_append vs rows now
  rw [hx, List.map_append]
  exact List.mem_append_left _ h

/-- After an insert batch, the picture name of every vehicle of the batch
is present in the table: the vehicle was either found by the existence
check or inserted. -/
theorem picName_present_after_insert {τ : Type} (vs : List (Vehicle τ))
    (rows : List (Row τ)) (now : Int) :
    ∀ v ∈ vs, v.picName ∈ ((insertVehiclesToSQL vs rows now).2).map Row.PicName := by
  induction vs generalizing rows with
  | nil => intro v hv; cases hv
  | cons w ws ih =>
      intro v hv
      rcases List.mem_cons.mp hv with rfl | hv
      · by_cases hc : rows.any (fun r => r.PicName == v.picName) = true
        · obtain ⟨r, hr, hb⟩ := List.any_eq_true.mp hc
          have hmem : v.picName ∈ rows.map Row.PicName :=
            List.mem_map.mpr ⟨r, hr, beq_iff_eq.mp hb⟩
          simpa [insertVehiclesToSQL, hc] using
            picName_stays_present ws rows now v.picName hmem
        · have hmem : v.picName ∈ (rows ++ [rowOfVehicle v now]).map Row.PicName := by
            simp [rowOfVehicle]
          simpa [insertVehiclesToSQL, hc] using
            picName_stays_present ws (rows ++ [rowOfVehicle v now]) now v.picName hmem
      · by_cases hc : rows.any (fun r => r.PicName == w.picName) = true
        · simpa [insertVehiclesToSQL, hc] using ih rows v hv
        · simpa [insertVehiclesToSQL, hc] using
            ih (rows ++ [rowOfVehicle w now]) v hv

/-- A batch whose every picture name is already present inserts nothing
and leaves the table unchanged. -/
theorem insert_all_present {τ : Type} (vs : List (Vehicle τ))
    (rows : List (Row τ)) (now : Int)
    (h : ∀ v ∈ vs, v.picName ∈ rows.map Row.PicName) :
    insertVehiclesToSQL vs rows now = (0, rows) := by
  induction vs with
  | nil => rfl
  | cons v vs ih =>
      have hv : v.picName ∈ rows.map Row.PicName := h v (by simp)
      obtain ⟨r, hr, hp⟩ := List.mem_map.mp hv
      have hc : rows.any (fun r => r.PicName == v.picName) = true := by
        exact List.any_eq_true.mpr ⟨r, hr, beq_iff_eq.mpr hp⟩
      simp only [insertVehiclesToSQL, hc, if_pos]
      exact ih (fun w hw => h w (by simp [hw]))

/-- One insert batch preserves the uniqueness invariant: the existence
check sees every row inserted so far, so a duplicate picture name is
never appended. -/
theorem insert_preserves_NoDupPic {τ : Type} (vs : List (Vehicle τ))
    (rows : List (Row τ)) (now : Int) (h : NoDupPic rows) :
    NoDupPic (insertVehiclesToSQL vs rows now).2 := by
  induction vs generalizing rows with
  | nil => exact h
  | cons v vs ih =>
      by_cases hc : rows.any (fun r => r.PicName == v.picName) = true
      · simpa [insertVehiclesToSQL, hc] using ih rows h
      · have hnotin : v.picName ∉ rows.map Row.PicName := by
          intro hmem
          obtain ⟨r, hr, hp⟩ := List.mem_map.mp hmem
          exact hc (List.any_eq_true.mpr ⟨r, hr, beq_iff_eq.mpr hp⟩)
        have hnd : NoDupPic (rows ++ [rowOfVehicle v now]) := by
          unfold NoDupPic at h ⊢
          rw [List.map_append]
          refine List.nodup_append.mpr ⟨h, by simp, ?_⟩
          intro p hp hp'
          simp only [List.map_cons, List.map_nil, List.mem_singleton] at hp'
          exact hnotin (by simpa [rowOfVehicle, hp'] using hp)
        simpa [insertVehiclesToSQL, hc] using
          ih (rows ++ [rowOfVehicle v now]) hnd

/-- C1: across every sequence of sync cycles executed sequentially, the
check-then-insert step of `insertVehiclesToSQL` preserves the uniqueness
invariant: a table with pairwise-distinct picture names never acquires
two rows with the same `PicName`, so an event already recorded is never
re-ingested. -/
theorem persisted_picNames_unique {τ : Type}
    (batches : List (List (Vehicle τ) × Int)) (rows : List (Row τ))
    (h : NoDupPic rows) : NoDupPic (applyCycles batches rows) := by
  induction batches generalizing rows with
  | nil => exact h
  | cons b bs ih =>
      exact ih (insertVehiclesToSQL b.1 rows b.2).2
        (insert_preserves_NoDupPic b.1 rows b.2 h)

/-- C1 witness: a concrete two-cycle run from an empty table keeps the
invariant. -/
theorem persisted_picNames_unique_witness :
    NoDupPic (applyCycles
      [([⟨(5 : Int), "AB1", "pic1", "IL", "forward"⟩,
         ⟨(6 : Int), "AB2", "pic2", "IL", "reverse"⟩], 100),
       ([⟨(7 : Int), "AB3", "pic1", "IL", "forward"⟩], 200)]
      ([] : List (Row Int))) :=
  persisted_picNames_unique _ [] (by simp [NoDupPic])

/-- C2: the persist step is idempotent: re-running `insertVehiclesToSQL`
with an unchanged vehicle list against the table state left by the first
run inserts zero rows, returns count 0, and leaves the table unchanged,
because every picture name of the list is already present after the
first run. -/
theorem insertVehiclesToSQL_idempotent {τ : Type} (vs : List (Vehicle τ))
    (rows : List (Row τ)) (now now' : Int) :
    insertVehiclesToSQL vs (insertVehiclesToSQL vs rows now).2 now' =
      (0, (insertVehiclesToSQL vs rows now).2) :=
  insert_all_present vs (insertVehiclesToSQL vs rows now).2 now'
    (picName_present_after_insert vs rows now)

/-- The maximum of a list, when defined, is an element of the list. -/
theorem listMax_mem (l : List Int) (m : Int) (h : listMax l = some m) : m ∈ l := by
  induction l generalizing m with
  | nil => cases h
  | cons x xs ih =>
      simp only [listMax] at h
      cases hxs : listMax xs with
      | none => rw [hxs] at h; simp at h; simp [h]
      | some k =>
          rw [hxs] at h
          simp only [Option.some.injEq] at h
          rcases max_choice x k with hm | hm
          · simp [← h, hm]
          · exact List.mem_cons_of_mem _ (by rw [← h, hm]; exact ih k hxs)

/-- The maximum of a list, when defined, bounds every element. -/
theorem le_listMax (l : List Int) (m : Int) (h : listMax l = some m) :
    ∀ x ∈ l, x ≤ m := by
  induction l generalizing m with
  | nil => intro x hx; cases hx
  | cons y ys ih =>
      intro x hx
      simp only [listMax] at h
      cases hys : listMax ys with
      | none =>
          rw [hys] at h
          simp only [Option.some.injEq] at h
          cases ys with
          | nil =>
              rcases List.mem_singleton.mp hx with rfl
              exact le_of_eq h
          | cons z zs => simp [listMax] at hys
      | some k =>
          rw [hys] at h
          simp only [Option.some.injEq] at h
          rcases List.mem_cons.mp hx with rfl | hx
          · rw [← h]; exact le_max_left _ _
          · rw [← h]; exact le_trans (ih k hys x hx) (le_max_right _ _)

/-- A non-empty list has a defined maximum. -/
theorem listMax_of_ne_nil (l : List Int) (h : l ≠ []) :
    ∃ m, listMax l = some m := by
  cases l with
  | nil => exact absurd rfl h
  | cons x xs => exact ⟨_, rfl⟩

/-- Appending elements can only raise a defined maximum. -/
theorem listMax_append_ge (l₁ l₂ : List Int) (m : Int)
    (h : listMax l₁ = some m) :
    ∃ m', listMax (l₁ ++ l₂) = some m' ∧ m ≤ m' := by
  have hne : l₁ ++ l₂ ≠ [] := by
    intro hnil
    rcases List.append_eq_nil.mp hnil with ⟨rfl, -⟩
    cases h
  obtain ⟨m', hm'⟩ := listMax_of_ne_nil _ hne
  exact ⟨m', hm', le_listMax _ _ hm' m (List.mem_append_left _ (listMax_mem _ _ h))⟩

/-- C4: watermark resolution: when the table has rows, `getLastSyncTime`
returns their maximum `CaptureTime` (an element bounding all rows); when
the table is empty, and also when the query itself fails, it returns the
start of the current local day — an instant at 00:00:00 local time lying
in the same day as `now`, hence neither epoch-zero in general nor the
current instant — without propagating the error. -/
theorem getLastSyncTime_spec (rows : List (Row Int)) (off now : Int) :
    getLastSyncTime (.error ()) off now = startOfLocalDay off now ∧
    (rows = [] → getLastSyncTime (.ok rows) off now = startOfLocalDay off now) ∧
    (∀ m, listMax (rows.map Row.CaptureTime) = some m →
      getLastSyncTime (.ok rows) off now = m ∧
      m ∈ rows.map Row.CaptureTime ∧
      ∀ r ∈ rows, r.CaptureTime ≤ m) ∧
    (rows ≠ [] → ∃ m, listMax (rows.map Row.CaptureTime) = some m) ∧
    (startOfLocalDay off now + off) % dayMs = 0 ∧
    startOfLocalDay off now ≤ now ∧ now < startOfLocalDay off now + dayMs := by
  refine ⟨rfl, ?_, ?_, ?_, ?_, ?_, ?_⟩
  · intro h; subst h; rfl
  · intro m hm
    refine ⟨by simp [getLastSyncTime, hm], listMax_mem _ _ hm, ?_⟩
    intro r hr
    exact le_listMax _ _ hm r.CaptureTime (List.mem_map.mpr ⟨r, hr, rfl⟩)
  · intro h
    exact listMax_of_ne_nil _ (by simpa using h)
  · simp only [startOfLocalDay, dayMs]; omega
  · simp only [startOfLocalDay, dayMs]; omega
  · simp only [startOfLocalDay, dayMs]; omega

/-- C4 witness: with three rows the maximum capture time 300 is returned;
with an empty table and offset UTC+2 the default is the local midnight
preceding the concrete instant. -/
theorem getLastSyncTime_spec_witness :
    getLastSyncTime (.ok [(⟨100, "A", "p1", "IL", "f", 0⟩ : Row Int),
      ⟨300, "B", "p2", "IL", "f", 0⟩,
      ⟨200, "C", "p3", "IL", "f", 0⟩]) 7200000 1705300000000 = 300 ∧
    getLastSyncTime (.ok ([] : List (Row Int))) 7200000 1705300000000 = 1705269600000 := by
  constructor
  · exact ((getLastSyncTime_spec _ 7200000 1705300000000).2.2.1 300 (by decide)).1
  · have h := ((getLastSyncTime_spec ([] : List (Row Int)) 7200000 1705300000000).2.1) rfl
    rw [h]; decide

/-- A sequence of cycles only appends rows to the table. -/
theorem applyCycles_append {τ : Type}
    (batches : List (List (Vehicle τ) × Int)) (rows : List (Row τ)) :
    ∃ extra, applyCycles batches rows = rows ++ extra := by
  induction batches generalizing rows with
  | nil => exact ⟨[], by simp [applyCycles]⟩
  | cons b bs ih =>
      obtain ⟨e₁, h₁⟩ := insertVehiclesToSQL_append b.1 rows b.2
      obtain ⟨e₂, h₂⟩ := ih (insertVehiclesToSQL b.1 rows b.2).2
      refine ⟨e₁ ++ e₂, ?_⟩
      simp only [applyCycles]
      rw [h₂, h₁, List.append_assoc]

/-- C10: watermark monotonicity across cycles: the only write path is row
insertion, so after any sequence of cycles the maximum persisted
`CaptureTime` is still defined and no smaller, and the watermark
`getLastSyncTime` resolves on its non-empty branch at the later state is
at least the one it resolves at the earlier state. -/
theorem watermark_monotone (batches : List (List (Vehicle Int) × Int))
    (rows : List (Row Int)) (off now now' w₀ : Int)
    (h : listMax (rows.map Row.CaptureTime) = some w₀) :
    ∃ w₁, listMax ((applyCycles batches rows).map Row.CaptureTime) = some w₁ ∧
      w₀ ≤ w₁ ∧
      getLastSyncTime (.ok rows) off now = w₀ ∧
      getLastSyncTime (.ok (applyCycles batches rows)) off now' = w₁ := by
  obtain ⟨extra, hx⟩ := applyCycles_append batches rows
  rw [hx, List.map_append]
  obtain ⟨w₁, hw₁, hle⟩ := listMax_append_ge _ (extra.map Row.CaptureTime) w₀ h
  exact ⟨w₁, hw₁, hle, by simp [getLastSyncTime, h],
    by simp [getLastSyncTime, hx, List.map_append, hw₁]⟩

/-- C10 witness: one concrete cycle that inserts a later event raises the
watermark from 300 to 500. -/
theorem watermark_monotone_witness :
    ∃ w₁, listMax ((applyCycles
        [([(⟨500, "D", "p9", "IL", "f"⟩ : Vehicle Int)], 50)]
        [(⟨300, "B", "p2", "IL", "f", 0⟩ : Row Int)]).map
          Row.CaptureTime) = some w₁ ∧
      (300 : Int) ≤ w₁ ∧
      getLastSyncTime (.ok [(⟨300, "B", "p2", "IL", "f", 0⟩ : Row Int)])
        7200000 1000 = 300 ∧
      getLastSyncTime (.ok (applyCycles
        [([(⟨500, "D", "p9", "IL", "f"⟩ : Vehicle Int)], 50)]
        [(⟨300, "B", "p2", "IL", "f", 0⟩ : Row Int)])) 7200000 2000 = w₁ :=
  watermark_monotone _ _ 7200000 1000 2000 300 (by decide)

/-- C6: parser normalization: with a 2xx response, an absent `Plates`
root, and likewise a `Plates` root with no `Plate` child, yield the empty
event sequence rather than an error; a lone `Plate` element yields a
one-element sequence and two `Plate` elements yield a two-element
sequence in device order, nothing dropped or double-wrapped. -/
theorem plates_normalization (st : Nat) (hst : resOk st = true)
    (p p₁ p₂ : PlateXml) (v v₁ v₂ : Vehicle LocalStamp)
    (hp : decodePlate p = .ok v) (hp₁ : decodePlate p₁ = .ok v₁)
    (hp₂ : decodePlate p₂ = .ok v₂) :
    fetchVehiclesFromCamera (.response st none) = [] ∧
    fetchVehiclesFromCamera (.response st (some ⟨none⟩)) = [] ∧
    fetchVehiclesFromCamera (.response st (some ⟨some (.one p)⟩)) = [v] ∧
    fetchVehiclesFromCamera (.response st (some ⟨some (.many [p₁, p₂])⟩)) = [v₁, v₂] := by
  refine ⟨?_, ?_, ?_, ?_⟩ <;>
    simp [fetchVehiclesFromCamera, fetchBody, hst, normalizePlates, decodeLoop,
      hp, hp₁, hp₂]

/-- C6 witness: concrete well-formed plates at status 200 produce
sequences of sizes 0, 0, 1 and 2. -/
theorem plates_normalization_witness :
    fetchVehiclesFromCamera (.response 200 none) = [] ∧
    fetchVehiclesFromCamera (.response 200 (some ⟨none⟩)) = [] ∧
    fetchVehiclesFromCamera (.response 200 (some ⟨some (.one
      ⟨some "20240115T091530", some "A1", some "pa", some "IL", some "f"⟩)⟩)) =
      [⟨decodeCaptureLocal "20240115T091530", "A1", "pa", "IL", "f"⟩] ∧
    fetchVehiclesFromCamera (.response 200 (some ⟨some (.many
      [⟨some "20240115T091530", some "A1", some "pa", some "IL", some "f"⟩,
       ⟨some "20240115T091630", some "A2", some "pb", some "IL", some "f"⟩])⟩)) =
      [⟨decodeCaptureLocal "20240115T091530", "A1", "pa", "IL", "f"⟩,
       ⟨decodeCaptureLocal "20240115T091630", "A2", "pb", "IL", "f"⟩] :=
  plates_normalization 200 (by decide) _ _ _ _ _ _ rfl rfl rfl

/-- C8: a response with a status outside the 2xx range throws
`HTTP status` before the body is read, so the fetch result carries the
status, is independent of the body, yields zero events, and the cycle of
that source ends at count zero with the store untouched — the error never
escapes `fetchVehiclesFromCamera`'s catch. -/
theorem non2xx_no_parse (st : Nat) (hst : resOk st = false)
    (body body' : Option PlatesNode) (cam : Camera) (store : StoreState)
    (now : Int) :
    fetchBody (.response st body) = ([], some (.httpStatus st)) ∧
    fetchBody (.response st body) = fetchBody (.response st body') ∧
    fetchVehiclesFromCamera (.response st body) = [] ∧
    syncVehicles cam (.response st body) now store = (0, store) := by
  refine ⟨?_, ?_, ?_, ?_⟩ <;>
    simp [fetchBody, fetchVehiclesFromCamera, syncVehicles, hst]

/-- C8 witness: a 404 response with a non-trivial body produces the
status-carrying error, no events, and an unchanged store. -/
theorem non2xx_no_parse_witness :
    fetchBody (.response 404 (some ⟨some (.many
      [⟨some "20240115T091530", some "A1", some "pa", some "IL", some "f"⟩])⟩)) =
      ([], some (.httpStatus 404)) ∧
    fetchBody (.response 404 (some ⟨some (.many
      [⟨some "20240115T091530", some "A1", some "pa", some "IL", some "f"⟩])⟩)) =
      fetchBody (.response 404 none) ∧
    fetchVehiclesFromCamera (.response 404 (some ⟨some (.many
      [⟨some "20240115T091530", some "A1", some "pa", some "IL", some "f"⟩])⟩)) = [] ∧
    syncVehicles ⟨"Camera1", "http://cam", "u", "pw", "VehicleDetection"⟩
      (.response 404 (some ⟨some (.many
        [⟨some "20240115T091530", some "A1", some "pa", some "IL", some "f"⟩])⟩))
      0 [] = (0, []) :=
  non2xx_no_parse 404 (by decide) _ (none) _ [] 0

/-- Decoding a list whose leading elements all decode and whose next
element throws yields exactly the decoded leading elements together with
the error. -/
theorem decodeLoop_stops_at_error (good : List PlateXml)
    (vs : List (Vehicle LocalStamp)) (hgood : decodeLoop good = (vs, none))
    (bad : PlateXml) (e : DecodeErr) (hbad : decodePlate bad = .error e)
    (rest : List PlateXml) :
    decodeLoop (good ++ bad :: rest) = (vs, some e) := by
  induction good generalizing vs with
  | nil =>
      simp only [decodeLoop, Prod.mk.injEq] at hgood
      obtain ⟨rfl, -⟩ := hgood
      simp [decodeLoop, hbad]
  | cons p ps ih =>
      cases hp : decodePlate p with
      | error e' => simp [decodeLoop, hp] at hgood
      | ok v =>
          simp only [decodeLoop, hp, Prod.mk.injEq] at hgood
          obtain ⟨h₁, h₂⟩ := hgood
          have hps : decodeLoop ps = ((decodeLoop ps).1, none) := by rw [← h₂]
          have hih := ih (decodeLoop ps).1 hps
          simp only [List.cons_append, decodeLoop, List.append_eq, hp, hih, ← h₁]

/-- C3 counterexample: the 14-character string given by the claim lacks
the gap character at position 8, so the positional slices land one place
early from position 9 on: the decode yields local time 91:53:0, not
09:15:30. -/
theorem decodeCaptureLocal_gapless_input_fails :
    decodeCaptureLocal "20240115091530" =
      { timeOfDay := "2024-01-15T91:53:0", zone := "Asia/Jerusalem" } ∧
    decodeCaptureLocal "20240115091530" ≠
      { timeOfDay := "2024-01-15T09:15:30", zone := "Asia/Jerusalem" } := by
  constructor
  · rfl
  · decide

/-- C3 (amended): the capture-time string is decoded positionally — year
at 0-3, month at 4-5, day at 6-7, a one-character gap at position 8,
hour at 9-10, minute at 11-12, second at 13-14, any trailing characters
ignored — and interpreted in the fixed zone Asia/Jerusalem; concretely,
the 15-character input with the gap character, 20240115T091530, decodes
to 2024-01-15 09:15:30 in that zone. -/
theorem decodeCaptureLocal_positional :
    (∀ (y1 y2 y3 y4 m1 m2 d1 d2 g h1 h2 i1 i2 s1 s2 : Char) (rest : List Char),
      decodeCaptureLocal ⟨y1 :: y2 :: y3 :: y4 :: m1 :: m2 :: d1 :: d2 :: g ::
          h1 :: h2 :: i1 :: i2 :: s1 :: s2 :: rest⟩ =
        { timeOfDay := ⟨[y1, y2, y3, y4, '-', m1, m2, '-', d1, d2, 'T',
            h1, h2, ':', i1, i2, ':', s1, s2]⟩
          zone := "Asia/Jerusalem" }) ∧
    decodeCaptureLocal "20240115T091530" =
      { timeOfDay := "2024-01-15T09:15:30", zone := "Asia/Jerusalem" } := by
  constructor
  · intro y1 y2 y3 y4 m1 m2 d1 d2 g h1 h2 i1 i2 s1 s2 rest
    rfl
  · rfl

/-- C9: prefix preservation on mid-batch decode failure: when the k-th
detection element throws (a required field is absent), the catch sits
outside the per-element loop, so the fetch returns exactly the events
decoded from the elements before it, the error names the decode failure,
and those earlier events are what the cycle hands to persistence; the
failing element and everything after it are dropped for the cycle. -/
theorem fetch_returns_decoded_lead_on_failure (good : List PlateXml)
    (bad : PlateXml) (rest : List PlateXml) (vs : List (Vehicle LocalStamp))
    (e : DecodeErr) (st : Nat) (hst : resOk st = true)
    (hgood : decodeLoop good = (vs, none)) (hbad : decodePlate bad = .error e)
    (cam : Camera) (store : StoreState) (now : Int) :
    fetchBody (.response st (some ⟨some (.many (good ++ bad :: rest))⟩)) =
      (vs, some (.decode e)) ∧
    fetchVehiclesFromCamera (.response st (some ⟨some (.many (good ++ bad :: rest))⟩)) =
      vs ∧
    (vs ≠ [] →
      syncVehicles cam (.response st (some ⟨some (.many (good ++ bad :: rest))⟩))
          now store =
        ((insertVehiclesToSQL vs (getTable store cam.tableName) now).1,
         setTable store cam.tableName
           (insertVehiclesToSQL vs (getTable store cam.tableName) now).2)) := by
  have hdl := decodeLoop_stops_at_error good vs hgood bad e hbad rest
  refine ⟨?_, ?_, ?_⟩
  · simp [fetchBody, hst, normalizePlates, hdl]
  · simp [fetchVehiclesFromCamera, fetchBody, hst, normalizePlates, hdl]
  · intro hne
    have hemp : vs.isEmpty = false := by
      cases vs with
      | nil => exact absurd rfl hne
      | cons a as => rfl
    simp [syncVehicles, fetchVehiclesFromCamera, fetchBody, hst,
      normalizePlates, hdl, hemp]

/-- C9 witness: a three-element batch whose second element lacks its
capture time yields exactly the first decoded event, and the cycle
persists it. -/
theorem fetch_returns_decoded_lead_on_failure_witness :
    fetchBody (.response 200 (some ⟨some (.many
      [⟨some "20240115T091530", some "A1", some "pa", some "IL", some "f"⟩,
       ⟨none, some "A2", some "pb", some "IL", some "f"⟩,
       ⟨some "20240115T091730", some "A3", some "pc", some "IL", some "f"⟩])⟩)) =
      ([⟨decodeCaptureLocal "20240115T091530", "A1", "pa", "IL", "f"⟩],
       some (.decode .missingField)) ∧
    fetchVehiclesFromCamera (.response 200 (some ⟨some (.many
      [⟨some "20240115T091530", some "A1", some "pa", some "IL", some "f"⟩,
       ⟨none, some "A2", some "pb", some "IL", some "f"⟩,
       ⟨some "20240115T091730", some "A3", some "pc", some "IL", some "f"⟩])⟩)) =
      [⟨decodeCaptureLocal "20240115T091530", "A1", "pa", "IL", "f"⟩] ∧
    syncVehicles ⟨"Camera1", "http://cam", "u", "pw", "VehicleDetection"⟩
        (.response 200 (some ⟨some (.many
          [⟨some "20240115T091530", some "A1", some "pa", some "IL", some "f"⟩,
           ⟨none, some "A2", some "pb", some "IL", some "f"⟩,
           ⟨some "20240115T091730", some "A3", some "pc", some "IL", some "f"⟩])⟩))
        0 [] =
      ((insertVehiclesToSQL
          [⟨decodeCaptureLocal "20240115T091530", "A1", "pa", "IL", "f"⟩]
          (getTable [] "VehicleDetection") 0).1,
       setTable [] "VehicleDetection"
         (insertVehiclesToSQL
           [⟨decodeCaptureLocal "20240115T091530", "A1", "pa", "IL", "f"⟩]
           (getTable [] "VehicleDetection") 0).2) := by
  have h := fetch_returns_decoded_lead_on_failure
    [⟨some "20240115T091530", some "A1", some "pa", some "IL", some "f"⟩]
    ⟨none, some "A2", some "pb", some "IL", some "f"⟩
    [⟨some "20240115T091730", some "A3", some "pc", some "IL", some "f"⟩]
    [⟨decodeCaptureLocal "20240115T091530", "A1", "pa", "IL", "f"⟩]
    .missingField 200 (by decide) rfl rfl
    ⟨"Camera1", "http://cam", "u", "pw", "VehicleDetection"⟩ [] 0
  exact ⟨h.1, h.2.1, h.2.2 (by decide)⟩

/-- On a batch whose every capture stamp parses to a valid date, the
per-vehicle catch never fires and the checked insert loop coincides with
the error-free one. -/
theorem insertChecked_eq_insert_of_valid (vs : List (Vehicle LocalStamp))
    (rows : List (Row LocalStamp)) (now : Int)
    (h : ∀ v ∈ vs, momentValid v.captureTime = true) :
    insertVehiclesToSQLChecked vs rows now = insertVehiclesToSQL vs rows now := by
  induction vs generalizing rows with
  | nil => rfl
  | cons v vs ih =>
      have hv := h v (by simp)
      have hrest : ∀ w ∈ vs, momentValid w.captureTime = true :=
        fun w hw => h w (by simp [hw])
      by_cases hc : rows.any (fun r => r.PicName == v.picName) = true
      · simp [insertVehiclesToSQLChecked, insertVehiclesToSQL, hc, ih _ hrest]
      · simp [insertVehiclesToSQLChecked, insertVehiclesToSQL, hc, hv, ih _ hrest]

/-- C5 counterexample: a three-event batch whose second event is missing
a required field does not keep the other two events: the throw happens
in a loop with no per-element catch, so only the first event is decoded
and persisted — one row, not the two the claim requires. -/
theorem missing_field_batch_not_two :
    (insertVehiclesToSQLChecked (fetchVehiclesFromCamera (.response 200 (some ⟨some (.many
      [⟨some "20240115T091530", some "A1", some "pa", some "IL", some "f"⟩,
       ⟨none, some "A2", some "pb", some "IL", some "f"⟩,
       ⟨some "20240115T091730", some "A3", some "pc", some "IL", some "f"⟩])⟩)))
      [] 0).1 = 1 ∧
    (insertVehiclesToSQLChecked (fetchVehiclesFromCamera (.response 200 (some ⟨some (.many
      [⟨some "20240115T091530", some "A1", some "pa", some "IL", some "f"⟩,
       ⟨none, some "A2", some "pb", some "IL", some "f"⟩,
       ⟨some "20240115T091730", some "A3", some "pc", some "IL", some "f"⟩])⟩)))
      [] 0).1 ≠ 2 := by
  refine ⟨rfl, by decide⟩

/-- C5 (amended): an element carrying a present but malformed capture
time is skipped on its own while all other elements of the batch are
still decoded and persisted: the positional decode is total, so the
whole batch decodes, and at persistence the driver rejects the malformed
event's invalid date — the per-vehicle catch logs the error and only
that row is dropped — so the three-event batch whose second capture
time is the malformed GARBAGE persists exactly two rows; an element
missing a required field, by contrast, throws inside the decode loop and
drops itself and every later element, so that batch persists exactly the
decoded leading events — in neither case a cycle-wide failure. -/
theorem batch_decode_failure_concrete :
    fetchVehiclesFromCamera (.response 200 (some ⟨some (.many
      [⟨some "20240115T091530", some "A1", some "pa", some "IL", some "f"⟩,
       ⟨some "GARBAGE", some "A2", some "pb", some "IL", some "f"⟩,
       ⟨some "20240115T091730", some "A3", some "pc", some "IL", some "f"⟩])⟩)) =
      [⟨decodeCaptureLocal "20240115T091530", "A1", "pa", "IL", "f"⟩,
       ⟨decodeCaptureLocal "GARBAGE", "A2", "pb", "IL", "f"⟩,
       ⟨decodeCaptureLocal "20240115T091730", "A3", "pc", "IL", "f"⟩] ∧
    momentValid (decodeCaptureLocal "GARBAGE") = false ∧
    momentValid (decodeCaptureLocal "20240115T091530") = true ∧
    insertVehiclesToSQLChecked
      [⟨decodeCaptureLocal "20240115T091530", "A1", "pa", "IL", "f"⟩,
       ⟨decodeCaptureLocal "GARBAGE", "A2", "pb", "IL", "f"⟩,
       ⟨decodeCaptureLocal "20240115T091730", "A3", "pc", "IL", "f"⟩] [] 0 =
      (2, [rowOfVehicle ⟨decodeCaptureLocal "20240115T091530", "A1", "pa", "IL", "f"⟩ 0,
           rowOfVehicle ⟨decodeCaptureLocal "20240115T091730", "A3", "pc", "IL", "f"⟩ 0]) ∧
    fetchVehiclesFromCamera (.response 200 (some ⟨some (.many
      [⟨some "20240115T091530", some "A1", some "pa", some "IL", some "f"⟩,
       ⟨none, some "A2", some "pb", some "IL", some "f"⟩,
       ⟨some "20240115T091730", some "A3", some "pc", some "IL", some "f"⟩])⟩)) =
      [⟨decodeCaptureLocal "20240115T091530", "A1", "pa", "IL", "f"⟩] ∧
    insertVehiclesToSQLChecked
      [⟨decodeCaptureLocal "20240115T091530", "A1", "pa", "IL", "f"⟩] [] 0 =
      (1, [rowOfVehicle ⟨decodeCaptureLocal "20240115T091530", "A1", "pa", "IL", "f"⟩ 0]) := by
  refine ⟨rfl, by decide, by decide, by decide, rfl, by decide⟩

/-- C7: multi-source isolation: the coordinator runs the configured
sources strictly sequentially, and a source whose device call fails
contributes count 0 and leaves the store untouched, so every later
source runs exactly the cycle it would run with the failed source
absent; in particular, with two sources where the first device is
unreachable, the second completes its normal cycle and its count is
reported independently. -/
theorem syncAllCameras_isolation (c : Camera)
    (rest : List (Camera × DeviceResult)) (now : Int) (st : StoreState) :
    syncAllCameras ((c, .unreachable) :: rest) now st =
      ((0 : Nat) :: (syncAllCameras rest now st).1,
       (syncAllCameras rest now st).2) ∧
    ∀ (c₂ : Camera) (d₂ : DeviceResult),
      syncAllCameras [(c, .unreachable), (c₂, d₂)] now st =
        ([0, (syncVehicles c₂ d₂ now st).1], (syncVehicles c₂ d₂ now st).2) := by
  have hfail : syncVehicles c .unreachable now st = (0, st) := rfl
  constructor
  · simp [syncAllCameras, hfail]
  · intro c₂ d₂
    simp [syncAllCameras, hfail]
